import Mathlib

/-!
Verification of the Equihash-specific stratum adapter (`equi-stratum.cpp`).

Embedding conventions: a 32-byte target buffer is a byte function `ℕ → ℕ`
(index ↦ byte value, little-endian-first storage order; indices ≥ 32 model
the memory right past the buffer, so out-of-bounds stores stay visible),
`double` is modelled as `ℚ` with exact arithmetic, machine integers are `ℕ`
with explicit `% 2^w` truncation exactly where the code truncates, and the
stratum context is an explicit state record threaded through the handlers.
-/

/-- Scaling loop of `diff_to_target_equi`:
`for (k = 6; k > 0 && diff > 1.0; k--) diff /= 4294967296.0;` — the result is
the final `(k, diff)` pair, entered with `k = 6`. -/
def scaleLoop : ℕ → ℚ → ℕ × ℚ
  | 0, d => (0, d)
  | k + 1, d => if 1 < d then scaleLoop k (d / 4294967296) else (k + 1, d)

/-- Significand of `diff_to_target_equi`:
`m = (uint64_t)(4294901760.0 / diff)` computed on the scaled difficulty.
For quotients below `2^64` the C cast truncates the positive quotient
toward zero, i.e. takes the floor; for quotients at or above `2^64`
(difficulties below about `2^-32`) the conversion is undefined in C, and
x86-64 code produces 0 (the `cvttsd2si` overflow pattern), which this
embedding adopts. The literal `18446744073709551616` is `2^64`. -/
def mOf (diff : ℚ) : ℕ :=
  if 4294901760 / (scaleLoop 6 diff).2 < 18446744073709551616 then
    (⌊(4294901760 : ℚ) / (scaleLoop 6 diff).2⌋).toNat
  else 0

/-- Raw buffer contents of `diff_to_target_equi` after `memset(target, 0, 32)`
and the two 32-bit little-endian word stores
`target[k + 1] = (uint32_t)(m >> 8); target[k + 2] = (uint32_t)(m >> 40);`.
Word `w` occupies bytes `4*w .. 4*w+3`, least significant byte first; for
`k = 6` the second store lands at bytes 32..35, past the 32-byte buffer. -/
def rawByte (k m i : ℕ) : ℕ :=
  if 4 * (k + 1) ≤ i ∧ i < 4 * (k + 1) + 4 then
    m / 2 ^ 8 % 2 ^ 32 / 2 ^ (8 * (i - 4 * (k + 1))) % 256
  else if 4 * (k + 2) ≤ i ∧ i < 4 * (k + 2) + 4 then
    m / 2 ^ 40 % 2 ^ 32 / 2 ^ (8 * (i - 4 * (k + 2))) % 256
  else 0

/-- Fill loop of `diff_to_target_equi`:
`for (k = 0; k < 28 && ((uint8_t*)target)[k] == 0; k++) ((uint8_t*)target)[k] = 0xff;`
— byte `i < 28` becomes `0xff` exactly when all bytes `0..i` were zero. -/
def fillBytes (f : ℕ → ℕ) (i : ℕ) : ℕ :=
  if i < 28 ∧ ((List.range (i + 1)).all fun j => f j == 0) then 255 else f i

/-- The conversion `diff_to_target_equi(uint32_t *target, double diff)`,
returned as the byte image of the output buffer. -/
def diff_to_target_equi (diff : ℚ) : ℕ → ℕ :=
  let k := (scaleLoop 6 diff).1
  let m := mOf diff
  if m = 0 ∧ k = 6 then fun i => if i < 32 then 255 else 0
  else fillBytes (rawByte k m)

/-- Word indices of the two stores `target[k + 1]` and `target[k + 2]`
performed by the general branch of `diff_to_target_equi`. -/
def diff_to_target_writeWords (diff : ℚ) : List ℕ :=
  [(scaleLoop 6 diff).1 + 1, (scaleLoop 6 diff).1 + 2]

/-- Whether `diff_to_target_equi` takes its `memset(target, 0xff, 32)` branch
(condition `m == 0 && k == 6`). -/
def takesFfBranch (diff : ℚ) : Bool :=
  (mOf diff == 0) && ((scaleLoop 6 diff).1 == 6)

/-- The conversion `target_to_diff_equi(uint32_t* target)`: read the
significant word `m = tgt[30]<<24 | tgt[29]<<16 | tgt[28]<<8 | tgt[27]` from
the byte view of the buffer and return `0xffff0000 / m` (0 if `m` is 0).
Each byte of a real buffer is below 256; `% 256` keeps the reads byte-sized
for arbitrary inputs. -/
def target_to_diff_equi (t : ℕ → ℕ) : ℚ :=
  let m : ℕ := t 30 % 256 * 2 ^ 24 + t 29 % 256 * 2 ^ 16 + t 28 % 256 * 2 ^ 8 + t 27 % 256
  if m = 0 then 0 else 4294901760 / (m : ℚ)

/-- View of a 32-byte list as a target buffer (bytes past the end read 0). -/
def targetOfList (l : List ℕ) : ℕ → ℕ := fun i => l.getD i 0

/-- Byte swap of a 32-bit value, `swab32`. -/
def swab32 (x : ℕ) : ℕ :=
  x % 256 * 2 ^ 24 + x / 2 ^ 8 % 256 * 2 ^ 16 + x / 2 ^ 16 % 256 * 2 ^ 8 + x / 2 ^ 24 % 256

/-- Buffer assembly of `equi_network_diff(struct work *work)`, taking the
`nbits` word it reads from `work->data[26]` as its argument: extract the
mantissa `bits = nbits & 0xffffff` and the exponent byte
`swab32(nbits) & 0xff`, shift `tgt64 = (uint64_t)swab32(bits) << shift`
with `shift = (31 - e) * 8`, and lay the bytes of `tgt64` big-endian into
bytes 24..31 of a zeroed 32-byte buffer. For exponent bytes below 24 the
shift count reaches 64..224, where the C shift is undefined; x86-64 and
ARM64 mask the count to its low 6 bits, which this embedding adopts
(`% 64` on the exponent). The `ℕ` subtraction matches the C `int16_t`
only for `e ≤ 31`; beyond that the C shift count is negative (undefined
as well, and not modelled). -/
def netTargetOf (nbits : ℕ) : ℕ → ℕ :=
  let bits := nbits % 2 ^ 24
  let e := swab32 nbits % 256
  let tgt64 := swab32 bits * 2 ^ ((31 - e) * 8 % 64) % 2 ^ 64
  fun i => if 24 ≤ i ∧ i < 32 then tgt64 / 2 ^ (8 * (31 - i)) % 256 else 0

/-- Final step of `equi_network_diff`: convert the assembled buffer. -/
def equi_network_diff (nbits : ℕ) : ℚ :=
  target_to_diff_equi (netTargetOf nbits)

/-- Expansion of a compact `nbits` value following the specification's words:
the three-byte mantissa is placed at byte offset `e - 3` of a big-endian
32-byte buffer, i.e. the 256-bit target is `mant * 256^(e-3)`; the buffer is
then reversed into little-endian-first storage order, so storage byte `i`
is byte `i` (by significance) of that number. -/
def expandCompactStorage (nbits : ℕ) : ℕ → ℕ :=
  let mant := nbits % 2 ^ 24
  let e := nbits / 2 ^ 24 % 256
  let N := mant * 2 ^ (8 * (e - 3)) % 2 ^ 256
  fun i => if i < 32 then N / 2 ^ (8 * i) % 256 else 0

/-- Storage-order byte list of the target whose Equihash difficulty is 1
(big-endian display `00ffff00 00...00`, cf. the comment atop the C file). -/
def diffOneTargetList : List ℕ := List.replicate 28 0 ++ [0, 255, 255, 0]

/-- The final `(k, diff)` of the scaling loop has `k ≤` the entry value. -/
theorem scaleLoop_fst_le (k : ℕ) (d : ℚ) : (scaleLoop k d).1 ≤ k := by
  induction k generalizing d with
  | zero => simp [scaleLoop]
  | succ n ih =>
    by_cases h : 1 < d
    · simp only [scaleLoop, if_pos h]
      exact le_trans (ih _) (Nat.le_succ n)
    · simp [scaleLoop, h]

/-- Evaluation of `mOf` when the scaled quotient stays below `2^64`. -/
theorem mOf_eq_floor (d : ℚ) (k : ℕ) (d' : ℚ) (hk : scaleLoop 6 d = (k, d'))
    (hlt : (4294901760 : ℚ) / d' < 18446744073709551616) :
    mOf d = (⌊(4294901760 : ℚ) / d'⌋).toNat := by
  simp only [mOf, hk]
  rw [if_pos hlt]

/-- C1: for every 32-byte target `t` in little-endian storage order,
`target_to_diff_equi` returns 0 when the significant word
`m = t[30]<<24 | t[29]<<16 | t[28]<<8 | t[27]` is zero, and otherwise
returns `0xffff0000 / m`. -/
theorem target_to_diff_equi_formula (t : List ℕ) (h32 : t.length = 32)
    (hb : ∀ b ∈ t, b < 256) :
    target_to_diff_equi (targetOfList t) =
      if t.getD 30 0 * 2 ^ 24 + t.getD 29 0 * 2 ^ 16 + t.getD 28 0 * 2 ^ 8 +
          t.getD 27 0 = 0 then 0
      else 4294901760 /
        ((t.getD 30 0 * 2 ^ 24 + t.getD 29 0 * 2 ^ 16 + t.getD 28 0 * 2 ^ 8 +
          t.getD 27 0 : ℕ) : ℚ) := by
  have hbyte : ∀ i, i < 32 → t.getD i 0 % 256 = t.getD i 0 := by
    intro i hi
    have hlt : i < t.length := by omega
    rw [List.getD_eq_getElem t 0 hlt]
    exact Nat.mod_eq_of_lt (hb _ (List.getElem_mem hlt))
  simp only [target_to_diff_equi, targetOfList, hbyte 30 (by omega),
    hbyte 29 (by omega), hbyte 28 (by omega), hbyte 27 (by omega)]

/-- Witness for C1 at the diff-1 target: the hypotheses hold for
`diffOneTargetList` and the formula applies. -/
theorem target_to_diff_equi_formula_witness :
    (diffOneTargetList.length = 32 ∧ ∀ b ∈ diffOneTargetList, b < 256) ∧
    target_to_diff_equi (targetOfList diffOneTargetList) =
      if diffOneTargetList.getD 30 0 * 2 ^ 24 + diffOneTargetList.getD 29 0 * 2 ^ 16 +
          diffOneTargetList.getD 28 0 * 2 ^ 8 + diffOneTargetList.getD 27 0 = 0 then 0
      else 4294901760 /
        ((diffOneTargetList.getD 30 0 * 2 ^ 24 + diffOneTargetList.getD 29 0 * 2 ^ 16 +
          diffOneTargetList.getD 28 0 * 2 ^ 8 + diffOneTargetList.getD 27 0 : ℕ) : ℚ) :=
  ⟨⟨by decide, by decide⟩,
    target_to_diff_equi_formula diffOneTargetList (by decide) (by decide)⟩

/-- C3 counterexample: `diff_to_target_equi 1` does not put the bytes
`0xff, 0xff, 0x00, 0x00` at storage indices 27..30 (byte 28 is `0x00`). -/
theorem diff1_target_bytes_claim_false :
    ¬ (diff_to_target_equi 1 27 = 255 ∧ diff_to_target_equi 1 28 = 255 ∧
       diff_to_target_equi 1 29 = 0 ∧ diff_to_target_equi 1 30 = 0) := by
  have hm : mOf 1 = 4294901760 := by
    rw [mOf_eq_floor 1 6 1 (by norm_num [scaleLoop]) (by norm_num)]
    norm_num
    rfl
  have hk : scaleLoop 6 1 = (6, 1) := by norm_num [scaleLoop]
  simp only [diff_to_target_equi, hm, hk]
  decide

/-- C3 as the code actually behaves: `diff_to_target_equi 1` yields bytes
`0xff` at 0..27 and `0x00, 0xff, 0xff, 0x00` at 28..31, i.e. the
`0x00ffff00` pattern sits at storage indices 28..31, one byte above the
claimed offset. -/
theorem diff1_target_bytes :
    (List.range 32).map (diff_to_target_equi 1) =
      List.replicate 28 255 ++ [0, 255, 255, 0] := by
  have hm : mOf 1 = 4294901760 := by
    rw [mOf_eq_floor 1 6 1 (by norm_num [scaleLoop]) (by norm_num)]
    norm_num
    rfl
  have hk : scaleLoop 6 1 = (6, 1) := by norm_num [scaleLoop]
  simp only [diff_to_target_equi, hm, hk]
  decide

/-- C9: for `diff = 1/1024` (any `diff ≤ 1.0` behaves alike) the scaling loop
leaves `k = 6`, so the second word store `target[k + 2]` hits word index 8 —
bytes 32..35, outside the 32-byte buffer — and for this input it stores a
nonzero byte (3) there. -/
theorem diff_to_target_oob_write :
    diff_to_target_writeWords (1 / 1024) = [7, 8] ∧
    ¬ (∀ i ∈ diff_to_target_writeWords (1 / 1024), i < 8) ∧
    diff_to_target_equi (1 / 1024) 32 = 3 := by
  have hm : mOf (1 / 1024) = 4397979402240 := by
    rw [mOf_eq_floor (1 / 1024) 6 (1 / 1024) (by norm_num [scaleLoop]) (by norm_num)]
    norm_num
    rfl
  have hk : scaleLoop 6 (1 / 1024 : ℚ) = (6, 1 / 1024) := by norm_num [scaleLoop]
  have hww : diff_to_target_writeWords (1 / 1024) = [7, 8] := by
    simp only [diff_to_target_writeWords, hk]
  refine ⟨hww, ?_, ?_⟩
  · rw [hww]; decide
  · simp only [diff_to_target_equi, hm, hk]
    decide

/-- C10 counterexample: at `diff = 2^-64` the quotient `0xffff0000 / diff`
is at least `2^64`, so the double-to-uint64 cast overflows (undefined in C,
0 on x86-64), `k` stays 6, and the code takes the `memset(target, 0xff, 32)`
branch: the branch is live for ultra-low difficulties, not unreachable. -/
theorem ff_branch_taken_at_tiny_diff :
    (0 : ℚ) < 1 / 18446744073709551616 ∧
    takesFfBranch (1 / 18446744073709551616) = true := by
  refine ⟨by norm_num, ?_⟩
  have hk : scaleLoop 6 (1 / 18446744073709551616 : ℚ) =
      (6, 1 / 18446744073709551616) := by norm_num [scaleLoop]
  have hm : mOf (1 / 18446744073709551616) = 0 := by
    simp only [mOf, hk]
    rw [if_neg (by norm_num)]
  simp only [takesFfBranch, hm, hk]
  rfl

/-- C10 (amended): for every difficulty of at least `2^-32` the
`memset(target, 0xff, 32)` branch of `diff_to_target_equi` is unreachable:
if the loop leaves `k = 6` the scaled difficulty is at most 1 and the
quotient `0xffff0000 / diff` lies in `[0xffff0000, 2^64)`, so `m > 0`.
Below roughly `2^-32` the cast overflows (0 on x86-64, cf. the
counterexample) and the branch fires as the easiest-target guard. -/
theorem ff_branch_unreachable (d : ℚ) (hd : 1 / 4294967296 ≤ d) :
    ((scaleLoop 6 d).1 = 6 → (scaleLoop 6 d).2 ≤ 1 ∧ 0 < mOf d) ∧
    takesFfBranch d = false := by
  have hd0 : (0 : ℚ) < d := lt_of_lt_of_le (by norm_num) hd
  by_cases h1 : 1 < d
  · have hstep : scaleLoop 6 d = scaleLoop 5 (d / 4294967296) := by
      simp only [scaleLoop, if_pos h1]
    have hk : (scaleLoop 6 d).1 ≤ 5 := by
      rw [hstep]; exact scaleLoop_fst_le 5 _
    refine ⟨fun h6 => absurd h6 (by omega), ?_⟩
    cases hbeq : ((scaleLoop 6 d).1 == 6) with
    | true => exact absurd (eq_of_beq hbeq) (by omega)
    | false => simp [takesFfBranch, hbeq]
  · have hk : scaleLoop 6 d = (6, d) := by simp [scaleLoop, h1]
    have hd1 : d ≤ 1 := not_lt.mp h1
    have hqlt : (4294901760 : ℚ) / d < 18446744073709551616 := by
      rw [div_lt_iff₀ hd0]
      nlinarith [hd]
    have hm : 0 < mOf d := by
      rw [mOf_eq_floor d 6 d hk hqlt]
      have hge : (4294901760 : ℚ) ≤ 4294901760 / d := by
        rw [le_div_iff₀ hd0]
        nlinarith
      have hfl : (1 : ℤ) ≤ ⌊(4294901760 : ℚ) / d⌋ := by
        apply Int.le_floor.mpr
        push_cast
        linarith
      omega
    refine ⟨fun _ => ⟨by rw [hk]; exact hd1, hm⟩, ?_⟩
    cases hbeq : (mOf d == 0) with
    | true => exact absurd (eq_of_beq hbeq) (by omega)
    | false => simp [takesFfBranch, hbeq]

/-- Witness for C10 at `d = 1/2`. -/
theorem ff_branch_unreachable_witness :
    (1 / 4294967296 : ℚ) ≤ 1 / 2 ∧
    (((scaleLoop 6 (1 / 2 : ℚ)).1 = 6 →
        (scaleLoop 6 (1 / 2 : ℚ)).2 ≤ 1 ∧ 0 < mOf (1 / 2)) ∧
      takesFfBranch (1 / 2) = false) :=
  ⟨by norm_num, ff_branch_unreachable (1 / 2) (by norm_num)⟩

/-- C2 counterexample: at `d = 1/2` the significant word
`m = ⌊0xffff0000 / 0.5⌋ = 0x1fffe0000` exceeds 32 bits; its top bits are
stored past the read window (and byte 27 is filled with `0xff`), so the
round trip returns about 1.0000152 instead of 0.5 — relative error about 1,
far above `2^-16`. -/
theorem roundtrip_band_violated_at_half :
    ¬ (|target_to_diff_equi (diff_to_target_equi (1 / 2)) - 1 / 2| / (1 / 2) ≤
        1 / 65536) := by
  have hm : mOf (1 / 2) = 8589803520 := by
    rw [mOf_eq_floor (1 / 2) 6 (1 / 2) (by norm_num [scaleLoop]) (by norm_num)]
    norm_num
    rfl
  have hk : scaleLoop 6 (1 / 2 : ℚ) = (6, 1 / 2) := by norm_num [scaleLoop]
  have hb27 : fillBytes (rawByte 6 8589803520) 27 = 255 := by decide
  have hb28 : fillBytes (rawByte 6 8589803520) 28 = 0 := by decide
  have hb29 : fillBytes (rawByte 6 8589803520) 29 = 254 := by decide
  have hb30 : fillBytes (rawByte 6 8589803520) 30 = 255 := by decide
  have hrt : target_to_diff_equi (diff_to_target_equi (1 / 2)) =
      4294901760 / 4294836479 := by
    simp only [diff_to_target_equi, hm, hk]
    rw [if_neg (by norm_num)]
    rw [target_to_diff_equi]
    simp only [hb27, hb28, hb29, hb30]
    norm_num
  rw [hrt, abs_of_nonneg (by norm_num : (0 : ℚ) ≤ 4294901760 / 4294836479 - 1 / 2)]
  norm_num

/-- Bytes below 24 of the raw buffer are zero when the scaling loop ran once
(`k = 5`: the word stores occupy bytes 24..31). -/
theorem rawByte5_lt24 (m j : ℕ) (hj : j < 24) : rawByte 5 m j = 0 := by
  rw [rawByte, if_neg (by omega), if_neg (by omega)]

/-- The fill loop leaves bytes at index 28 and above unchanged. -/
theorem fillBytes_ge28 (f : ℕ → ℕ) (i : ℕ) (hi : 28 ≤ i) : fillBytes f i = f i := by
  rw [fillBytes, if_neg]
  intro h
  omega

/-- Effect of the fill loop on byte 27 in the `k = 5` case: it becomes `0xff`
exactly when bytes 24..27 (the only possibly nonzero bytes below 28) are all
zero. -/
theorem fillBytes_rawByte5_27 (m : ℕ) :
    fillBytes (rawByte 5 m) 27 =
      if rawByte 5 m 24 = 0 ∧ rawByte 5 m 25 = 0 ∧ rawByte 5 m 26 = 0 ∧
          rawByte 5 m 27 = 0 then 255
      else rawByte 5 m 27 := by
  rw [fillBytes]
  have hiff : (((List.range 28).all fun j => rawByte 5 m j == 0) = true) ↔
      (rawByte 5 m 24 = 0 ∧ rawByte 5 m 25 = 0 ∧ rawByte 5 m 26 = 0 ∧
        rawByte 5 m 27 = 0) := by
    rw [List.all_eq_true]
    constructor
    · intro hall
      exact ⟨eq_of_beq (hall 24 (List.mem_range.mpr (by norm_num))),
        eq_of_beq (hall 25 (List.mem_range.mpr (by norm_num))),
        eq_of_beq (hall 26 (List.mem_range.mpr (by norm_num))),
        eq_of_beq (hall 27 (List.mem_range.mpr (by norm_num)))⟩
    · intro h j hj
      rw [List.mem_range] at hj
      have hc : j < 24 ∨ j = 24 ∨ j = 25 ∨ j = 26 ∨ j = 27 := by omega
      rcases hc with h' | h' | h' | h' | h'
      · exact beq_iff_eq.mpr (rawByte5_lt24 m j h')
      · subst h'; exact beq_iff_eq.mpr h.1
      · subst h'; exact beq_iff_eq.mpr h.2.1
      · subst h'; exact beq_iff_eq.mpr h.2.2.1
      · subst h'; exact beq_iff_eq.mpr h.2.2.2
  by_cases h : rawByte 5 m 24 = 0 ∧ rawByte 5 m 25 = 0 ∧ rawByte 5 m 26 = 0 ∧
      rawByte 5 m 27 = 0
  · rw [if_pos ⟨by omega, hiff.mpr h⟩, if_pos h]
  · rw [if_neg, if_neg h]
    intro hcon
    exact h (hiff.mp hcon.2)

/-- In the `k = 5` case the significant word read back by
`target_to_diff_equi` is `m >> 32`, possibly plus 255 when the fill loop
reached byte 27. -/
theorem mread_bounds (m : ℕ) (hm64 : m < 2 ^ 64) :
    m / 2 ^ 32 ≤
      fillBytes (rawByte 5 m) 30 % 256 * 2 ^ 24 +
        fillBytes (rawByte 5 m) 29 % 256 * 2 ^ 16 +
        fillBytes (rawByte 5 m) 28 % 256 * 2 ^ 8 + fillBytes (rawByte 5 m) 27 % 256 ∧
    fillBytes (rawByte 5 m) 30 % 256 * 2 ^ 24 +
        fillBytes (rawByte 5 m) 29 % 256 * 2 ^ 16 +
        fillBytes (rawByte 5 m) 28 % 256 * 2 ^ 8 + fillBytes (rawByte 5 m) 27 % 256 ≤
      m / 2 ^ 32 + 255 := by
  have h28 : fillBytes (rawByte 5 m) 28 = m / 2 ^ 40 % 2 ^ 32 % 256 := by
    rw [fillBytes_ge28 _ _ (by norm_num), rawByte, if_neg (by omega), if_pos (by omega)]
    norm_num
  have h29 : fillBytes (rawByte 5 m) 29 = m / 2 ^ 40 % 2 ^ 32 / 2 ^ 8 % 256 := by
    rw [fillBytes_ge28 _ _ (by norm_num), rawByte, if_neg (by omega), if_pos (by omega)]
  have h30 : fillBytes (rawByte 5 m) 30 = m / 2 ^ 40 % 2 ^ 32 / 2 ^ 16 % 256 := by
    rw [fillBytes_ge28 _ _ (by norm_num), rawByte, if_neg (by omega), if_pos (by omega)]
  have r24 : rawByte 5 m 24 = m / 2 ^ 8 % 2 ^ 32 % 256 := by
    rw [rawByte, if_pos (by omega)]
    norm_num
  have r25 : rawByte 5 m 25 = m / 2 ^ 8 % 2 ^ 32 / 2 ^ 8 % 256 := by
    rw [rawByte, if_pos (by omega)]
  have r26 : rawByte 5 m 26 = m / 2 ^ 8 % 2 ^ 32 / 2 ^ 16 % 256 := by
    rw [rawByte, if_pos (by omega)]
  have r27 : rawByte 5 m 27 = m / 2 ^ 8 % 2 ^ 32 / 2 ^ 24 % 256 := by
    rw [rawByte, if_pos (by omega)]
  rw [fillBytes_rawByte5_27, r24, r25, r26, r27, h28, h29, h30]
  by_cases hz : m / 2 ^ 8 % 2 ^ 32 % 256 = 0 ∧ m / 2 ^ 8 % 2 ^ 32 / 2 ^ 8 % 256 = 0 ∧
      m / 2 ^ 8 % 2 ^ 32 / 2 ^ 16 % 256 = 0 ∧ m / 2 ^ 8 % 2 ^ 32 / 2 ^ 24 % 256 = 0
  · rw [if_pos hz]
    omega
  · rw [if_neg hz]
    omega

/-- Scaling a difficulty in `(1, 255]` divides exactly once. -/
theorem scaleLoop_gt1_le255 (d : ℚ) (h1 : 1 < d) (h2 : d ≤ 255) :
    scaleLoop 6 d = (5, d / 4294967296) := by
  have hlt : ¬ (1 < d / 4294967296) := by
    rw [not_lt, div_le_one (by norm_num)]
    linarith
  simp only [scaleLoop, if_pos h1, if_neg hlt]

/-- Core arithmetic of the round-trip band: if `m` is the floor of
`0xffff0000 * 2^32 / d`, the word read back is within `[m >> 32, m >> 32 + 255]`,
and `d ≤ 255`, then `0xffff0000 / readback` is within relative `2^-16` of `d`. -/
theorem band_core (d : ℚ) (m r : ℕ) (hd0 : 0 < d)
    (hmQ : (m : ℚ) * d ≤ 4294901760 * 4294967296)
    (hQm : 4294901760 * 4294967296 < ((m : ℚ) + 1) * d)
    (hRlb : m / 2 ^ 32 ≤ r) (hRub : r ≤ m / 2 ^ 32 + 255)
    (hmlb : 72339069014638592 ≤ m) (hmub : m < 2 ^ 64) :
    |4294901760 / (r : ℚ) - d| ≤ 1 / 65536 * d := by
  have hr0 : 0 < r := by omega
  have hrQ : (0 : ℚ) < r := by exact_mod_cast hr0
  have hF1 : 65536 * (m + 1) ≤ 65537 * (4294967296 * r) := by omega
  have hF2 : 4294967296 * (65535 * r) ≤ 65536 * m := by omega
  have hF1Q : (65536 : ℚ) * ((m : ℚ) + 1) ≤ 65537 * (4294967296 * r) := by
    exact_mod_cast hF1
  have hF2Q : (4294967296 : ℚ) * (65535 * r) ≤ 65536 * m := by
    exact_mod_cast hF2
  have h1' : d * (65536 * ((m : ℚ) + 1)) ≤ d * (65537 * (4294967296 * r)) :=
    mul_le_mul_of_nonneg_left hF1Q hd0.le
  have h2' : d * (4294967296 * (65535 * (r : ℚ))) ≤ d * (65536 * m) :=
    mul_le_mul_of_nonneg_left hF2Q hd0.le
  rw [abs_sub_le_iff]
  constructor
  · rw [sub_le_iff_le_add, div_le_iff₀ hrQ]
    nlinarith [h1', hQm]
  · rw [sub_le_iff_le_add, ← sub_le_iff_le_add', le_div_iff₀ hrQ]
    nlinarith [h2', hmQ]

/-- C2 (amended): for difficulties `d` in `[1, 255]` the round trip
`target_to_diff_equi ∘ diff_to_target_equi` has relative error at most
`2^-16`; below 1 the significant word overflows the read window and above
roughly 255 the fill loop's `0xff` at byte 27 can exceed the band. -/
theorem roundtrip_band_on_1_255 (d : ℚ) (h1 : 1 ≤ d) (h2 : d ≤ 255) :
    |target_to_diff_equi (diff_to_target_equi d) - d| / d ≤ 1 / 65536 := by
  have hd0 : (0 : ℚ) < d := by linarith
  rw [div_le_iff₀ hd0]
  rcases eq_or_lt_of_le h1 with heq | hlt
  · subst heq
    have hm : mOf 1 = 4294901760 := by
      rw [mOf_eq_floor 1 6 1 (by norm_num [scaleLoop]) (by norm_num)]
      norm_num
      rfl
    have hk : scaleLoop 6 1 = (6, 1) := by norm_num [scaleLoop]
    have hb27 : fillBytes (rawByte 6 4294901760) 27 = 255 := by decide
    have hb28 : fillBytes (rawByte 6 4294901760) 28 = 0 := by decide
    have hb29 : fillBytes (rawByte 6 4294901760) 29 = 255 := by decide
    have hb30 : fillBytes (rawByte 6 4294901760) 30 = 255 := by decide
    have hrt : target_to_diff_equi (diff_to_target_equi 1) =
        4294901760 / 4294902015 := by
      simp only [diff_to_target_equi, hm, hk]
      rw [if_neg (by norm_num)]
      rw [target_to_diff_equi]
      simp only [hb27, hb28, hb29, hb30]
      norm_num
    rw [hrt, abs_of_nonpos (by norm_num)]
    norm_num
  · have hscale := scaleLoop_gt1_le255 d hlt h2
    set Q : ℚ := 4294901760 / (d / 4294967296) with hQ
    have hQ' : Q = 4294901760 * 4294967296 / d := by
      rw [hQ, div_div_eq_mul_div]
    have hQpos : (0 : ℚ) < Q := by
      rw [hQ']
      positivity
    have hfl_nonneg : 0 ≤ ⌊Q⌋ := Int.floor_nonneg.mpr hQpos.le
    have hQub : Q ≤ 18446462598732840960 := by
      rw [hQ', div_le_iff₀ hd0]
      nlinarith [hlt]
    have hmOf : mOf d = (⌊Q⌋).toNat := by
      rw [hQ]
      exact mOf_eq_floor d 5 (d / 4294967296) hscale
        (hQ ▸ lt_of_le_of_lt hQub (by norm_num))
    set m : ℕ := (⌊Q⌋).toNat with hmdef
    have hcast : ((m : ℚ)) = ((⌊Q⌋ : ℤ) : ℚ) := by
      rw [hmdef]
      exact_mod_cast congrArg (fun z : ℤ => (z : ℚ)) (Int.toNat_of_nonneg hfl_nonneg)
    have hmQ' : (m : ℚ) ≤ Q := by rw [hcast]; exact Int.floor_le Q
    have hQm' : Q < (m : ℚ) + 1 := by rw [hcast]; exact Int.lt_floor_add_one Q
    have hmQ : (m : ℚ) * d ≤ 4294901760 * 4294967296 := by
      have := (le_div_iff₀ hd0).mp (hQ' ▸ hmQ')
      linarith
    have hQm : 4294901760 * 4294967296 < ((m : ℚ) + 1) * d := by
      have := (div_lt_iff₀ hd0).mp (hQ' ▸ hQm')
      linarith
    have hQlb : (72339069014638592 : ℚ) ≤ Q := by
      rw [hQ', le_div_iff₀ hd0]
      nlinarith [h2]
    have hmlb : 72339069014638592 ≤ m := by
      by_contra hcon
      push_neg at hcon
      have hmlt : (m : ℚ) + 1 ≤ 72339069014638592 := by
        have : m + 1 ≤ 72339069014638592 := by omega
        exact_mod_cast this
      linarith [hQlb, hQm']
    have hmub : m < 2 ^ 64 := by
      have hle : (m : ℚ) ≤ 18446462598732840960 := le_trans hmQ' hQub
      have : m ≤ 18446462598732840960 := by exact_mod_cast hle
      omega
    have hbranch : diff_to_target_equi d = fillBytes (rawByte 5 m) := by
      simp only [diff_to_target_equi, hscale, hmOf, ← hmdef]
      rw [if_neg (by simp)]
    obtain ⟨hRlb, hRub⟩ := mread_bounds m hmub
    have hr0 : 0 < fillBytes (rawByte 5 m) 30 % 256 * 2 ^ 24 +
        fillBytes (rawByte 5 m) 29 % 256 * 2 ^ 16 +
        fillBytes (rawByte 5 m) 28 % 256 * 2 ^ 8 + fillBytes (rawByte 5 m) 27 % 256 := by
      omega
    have hval : target_to_diff_equi (diff_to_target_equi d) =
        4294901760 / ((fillBytes (rawByte 5 m) 30 % 256 * 2 ^ 24 +
          fillBytes (rawByte 5 m) 29 % 256 * 2 ^ 16 +
          fillBytes (rawByte 5 m) 28 % 256 * 2 ^ 8 +
          fillBytes (rawByte 5 m) 27 % 256 : ℕ) : ℚ) := by
      rw [hbranch, target_to_diff_equi]
      rw [if_neg (by omega)]
    rw [hval]
    exact band_core d m _ hd0 hmQ hQm hRlb hRub hmlb hmub

/-- Witness for C2 (amended) at `d = 32`. -/
theorem roundtrip_band_on_1_255_witness :
    ((1 : ℚ) ≤ 32 ∧ (32 : ℚ) ≤ 255) ∧
    |target_to_diff_equi (diff_to_target_equi 32) - 32| / 32 ≤ 1 / 65536 :=
  ⟨⟨by norm_num, by norm_num⟩, roundtrip_band_on_1_255 32 (by norm_num) (by norm_num)⟩

/-- The difficulty read by `target_to_diff_equi` depends only on bytes
27..30 of the buffer. -/
theorem target_to_diff_eq_of_bytes (t u : ℕ → ℕ)
    (h27 : t 27 % 256 = u 27 % 256) (h28 : t 28 % 256 = u 28 % 256)
    (h29 : t 29 % 256 = u 29 % 256) (h30 : t 30 % 256 = u 30 % 256) :
    target_to_diff_equi t = target_to_diff_equi u := by
  rw [target_to_diff_equi, target_to_diff_equi, h27, h28, h29, h30]

/-- Reading a byte strictly below the truncation width commutes with the
truncation: `a % 2^w / 2^s % 256 = a / 2^s % 256` when `s + 8 ≤ w`. -/
theorem modpow_div_mod256 (a s w : ℕ) (hs : s + 8 ≤ w) :
    a % 2 ^ w / 2 ^ s % 256 = a / 2 ^ s % 256 := by
  have h : a % 2 ^ w / 2 ^ s = a / 2 ^ s % 2 ^ (w - s) := by
    rw [show (2 : ℕ) ^ w = 2 ^ s * 2 ^ (w - s) by rw [← pow_add]; congr 1; omega]
    exact Nat.mod_mul_right_div_self a (2 ^ s) (2 ^ (w - s))
  rw [h, Nat.mod_mod_of_dvd]
  rw [show (256 : ℕ) = 2 ^ 8 by norm_num]
  exact pow_dvd_pow 2 (by omega)

/-- Byte 27 of the network-target buffer agrees with the spec expansion
on the defined-shift exponent range. -/
theorem netExpand_byte27 (nbits : ℕ) (h32 : nbits < 2 ^ 32)
    (h3 : 24 ≤ nbits / 2 ^ 24) (h31 : nbits / 2 ^ 24 ≤ 31) :
    netTargetOf nbits 27 = expandCompactStorage nbits 27 := by
  have hE : swab32 nbits % 256 = nbits / 2 ^ 24 := by rw [swab32]; omega
  have hE2 : nbits / 2 ^ 24 % 256 = nbits / 2 ^ 24 := by omega
  simp only [netTargetOf, expandCompactStorage]
  rw [hE, hE2]
  rw [if_pos (show 24 ≤ 27 ∧ 27 < 32 by norm_num), if_pos (show (27 : ℕ) < 32 by norm_num)]
  simp only [swab32]
  obtain ⟨M, hM1⟩ : ∃ M, nbits % 2 ^ 24 = M := ⟨_, rfl⟩
  obtain ⟨E, hE1⟩ : ∃ E, nbits / 2 ^ 24 = E := ⟨_, rfl⟩
  rw [hE1] at h3 h31
  rw [hM1, hE1]
  obtain ⟨m0, m1, m2, hm0, hm1, hm2, hm3, hMdec, hb0, hb1, hb2⟩ :
      ∃ m0 m1 m2, M % 256 = m0 ∧ M / 2 ^ 8 % 256 = m1 ∧ M / 2 ^ 16 % 256 = m2 ∧
        M / 2 ^ 24 % 256 = 0 ∧ M = m2 * 2 ^ 16 + m1 * 2 ^ 8 + m0 ∧
        m0 < 256 ∧ m1 < 256 ∧ m2 < 256 :=
    ⟨M % 256, M / 2 ^ 8 % 256, M / 2 ^ 16 % 256, rfl, rfl, rfl, by omega, by omega,
      by omega, by omega, by omega⟩
  rw [hm0, hm1, hm2, hm3, hMdec]
  rw [modpow_div_mod256 _ _ _ (by norm_num), modpow_div_mod256 _ _ _ (by norm_num)]
  clear hE hE2 hm0 hm1 hm2 hm3 hMdec hM1 hE1 h32 M nbits
  interval_cases E
  · have h0 : (31 - 24) * 8 % 64 = 56 := by omega
    rw [h0]
    have h1 : (m0 * 2 ^ 24 + m1 * 2 ^ 16 + m2 * 2 ^ 8 + 0) * 2 ^ 56 /
        2 ^ (8 * (31 - 27)) = m0 * 2 ^ 48 + m1 * 2 ^ 40 + m2 * 2 ^ 32 := by omega
    have h2 : (m2 * 2 ^ 16 + m1 * 2 ^ 8 + m0) * 2 ^ (8 * (24 - 3)) /
        2 ^ (8 * 27) = 0 := by omega
    omega
  · have h0 : (31 - 25) * 8 % 64 = 48 := by omega
    rw [h0]
    have h1 : (m0 * 2 ^ 24 + m1 * 2 ^ 16 + m2 * 2 ^ 8 + 0) * 2 ^ 48 /
        2 ^ (8 * (31 - 27)) = m0 * 2 ^ 40 + m1 * 2 ^ 32 + m2 * 2 ^ 24 := by omega
    have h2 : (m2 * 2 ^ 16 + m1 * 2 ^ 8 + m0) * 2 ^ (8 * (25 - 3)) /
        2 ^ (8 * 27) = 0 := by omega
    omega
  · have h0 : (31 - 26) * 8 % 64 = 40 := by omega
    rw [h0]
    have h1 : (m0 * 2 ^ 24 + m1 * 2 ^ 16 + m2 * 2 ^ 8 + 0) * 2 ^ 40 /
        2 ^ (8 * (31 - 27)) = m0 * 2 ^ 32 + m1 * 2 ^ 24 + m2 * 2 ^ 16 := by omega
    have h2 : (m2 * 2 ^ 16 + m1 * 2 ^ 8 + m0) * 2 ^ (8 * (26 - 3)) /
        2 ^ (8 * 27) = 0 := by omega
    omega
  · have h0 : (31 - 27) * 8 % 64 = 32 := by omega
    rw [h0]
    have h1 : (m0 * 2 ^ 24 + m1 * 2 ^ 16 + m2 * 2 ^ 8 + 0) * 2 ^ 32 /
        2 ^ (8 * (31 - 27)) = m0 * 2 ^ 24 + m1 * 2 ^ 16 + m2 * 2 ^ 8 := by omega
    have h2 : (m2 * 2 ^ 16 + m1 * 2 ^ 8 + m0) * 2 ^ (8 * (27 - 3)) /
        2 ^ (8 * 27) = 0 := by omega
    omega
  · have h0 : (31 - 28) * 8 % 64 = 24 := by omega
    rw [h0]
    have h1 : (m0 * 2 ^ 24 + m1 * 2 ^ 16 + m2 * 2 ^ 8 + 0) * 2 ^ 24 /
        2 ^ (8 * (31 - 27)) = m0 * 2 ^ 16 + m1 * 2 ^ 8 + m2 * 2 ^ 0 := by omega
    have h2 : (m2 * 2 ^ 16 + m1 * 2 ^ 8 + m0) * 2 ^ (8 * (28 - 3)) /
        2 ^ (8 * 27) = m2 * 2 ^ 0 := by omega
    omega
  · have h0 : (31 - 29) * 8 % 64 = 16 := by omega
    rw [h0]
    have h1 : (m0 * 2 ^ 24 + m1 * 2 ^ 16 + m2 * 2 ^ 8 + 0) * 2 ^ 16 /
        2 ^ (8 * (31 - 27)) = m0 * 2 ^ 8 + m1 * 2 ^ 0 := by omega
    have h2 : (m2 * 2 ^ 16 + m1 * 2 ^ 8 + m0) * 2 ^ (8 * (29 - 3)) /
        2 ^ (8 * 27) = m2 * 2 ^ 8 + m1 * 2 ^ 0 := by omega
    omega
  · have h0 : (31 - 30) * 8 % 64 = 8 := by omega
    rw [h0]
    have h1 : (m0 * 2 ^ 24 + m1 * 2 ^ 16 + m2 * 2 ^ 8 + 0) * 2 ^ 8 /
        2 ^ (8 * (31 - 27)) = m0 * 2 ^ 0 := by omega
    have h2 : (m2 * 2 ^ 16 + m1 * 2 ^ 8 + m0) * 2 ^ (8 * (30 - 3)) /
        2 ^ (8 * 27) = m2 * 2 ^ 16 + m1 * 2 ^ 8 + m0 * 2 ^ 0 := by omega
    omega
  · have h0 : (31 - 31) * 8 % 64 = 0 := by omega
    rw [h0]
    have h1 : (m0 * 2 ^ 24 + m1 * 2 ^ 16 + m2 * 2 ^ 8 + 0) * 2 ^ 0 /
        2 ^ (8 * (31 - 27)) = 0 := by omega
    have h2 : (m2 * 2 ^ 16 + m1 * 2 ^ 8 + m0) * 2 ^ (8 * (31 - 3)) /
        2 ^ (8 * 27) = m2 * 2 ^ 24 + m1 * 2 ^ 16 + m0 * 2 ^ 8 := by omega
    omega

/-- Byte 28 of the network-target buffer agrees with the spec expansion
on the defined-shift exponent range. -/
theorem netExpand_byte28 (nbits : ℕ) (h32 : nbits < 2 ^ 32)
    (h3 : 24 ≤ nbits / 2 ^ 24) (h31 : nbits / 2 ^ 24 ≤ 31) :
    netTargetOf nbits 28 = expandCompactStorage nbits 28 := by
  have hE : swab32 nbits % 256 = nbits / 2 ^ 24 := by rw [swab32]; omega
  have hE2 : nbits / 2 ^ 24 % 256 = nbits / 2 ^ 24 := by omega
  simp only [netTargetOf, expandCompactStorage]
  rw [hE, hE2]
  rw [if_pos (show 24 ≤ 28 ∧ 28 < 32 by norm_num), if_pos (show (28 : ℕ) < 32 by norm_num)]
  simp only [swab32]
  obtain ⟨M, hM1⟩ : ∃ M, nbits % 2 ^ 24 = M := ⟨_, rfl⟩
  obtain ⟨E, hE1⟩ : ∃ E, nbits / 2 ^ 24 = E := ⟨_, rfl⟩
  rw [hE1] at h3 h31
  rw [hM1, hE1]
  obtain ⟨m0, m1, m2, hm0, hm1, hm2, hm3, hMdec, hb0, hb1, hb2⟩ :
      ∃ m0 m1 m2, M % 256 = m0 ∧ M / 2 ^ 8 % 256 = m1 ∧ M / 2 ^ 16 % 256 = m2 ∧
        M / 2 ^ 24 % 256 = 0 ∧ M = m2 * 2 ^ 16 + m1 * 2 ^ 8 + m0 ∧
        m0 < 256 ∧ m1 < 256 ∧ m2 < 256 :=
    ⟨M % 256, M / 2 ^ 8 % 256, M / 2 ^ 16 % 256, rfl, rfl, rfl, by omega, by omega,
      by omega, by omega, by omega⟩
  rw [hm0, hm1, hm2, hm3, hMdec]
  rw [modpow_div_mod256 _ _ _ (by norm_num), modpow_div_mod256 _ _ _ (by norm_num)]
  clear hE hE2 hm0 hm1 hm2 hm3 hMdec hM1 hE1 h32 M nbits
  interval_cases E
  · have h0 : (31 - 24) * 8 % 64 = 56 := by omega
    rw [h0]
    have h1 : (m0 * 2 ^ 24 + m1 * 2 ^ 16 + m2 * 2 ^ 8 + 0) * 2 ^ 56 /
        2 ^ (8 * (31 - 28)) = m0 * 2 ^ 56 + m1 * 2 ^ 48 + m2 * 2 ^ 40 := by omega
    have h2 : (m2 * 2 ^ 16 + m1 * 2 ^ 8 + m0) * 2 ^ (8 * (24 - 3)) /
        2 ^ (8 * 28) = 0 := by omega
    omega
  · have h0 : (31 - 25) * 8 % 64 = 48 := by omega
    rw [h0]
    have h1 : (m0 * 2 ^ 24 + m1 * 2 ^ 16 + m2 * 2 ^ 8 + 0) * 2 ^ 48 /
        2 ^ (8 * (31 - 28)) = m0 * 2 ^ 48 + m1 * 2 ^ 40 + m2 * 2 ^ 32 := by omega
    have h2 : (m2 * 2 ^ 16 + m1 * 2 ^ 8 + m0) * 2 ^ (8 * (25 - 3)) /
        2 ^ (8 * 28) = 0 := by omega
    omega
  · have h0 : (31 - 26) * 8 % 64 = 40 := by omega
    rw [h0]
    have h1 : (m0 * 2 ^ 24 + m1 * 2 ^ 16 + m2 * 2 ^ 8 + 0) * 2 ^ 40 /
        2 ^ (8 * (31 - 28)) = m0 * 2 ^ 40 + m1 * 2 ^ 32 + m2 * 2 ^ 24 := by omega
    have h2 : (m2 * 2 ^ 16 + m1 * 2 ^ 8 + m0) * 2 ^ (8 * (26 - 3)) /
        2 ^ (8 * 28) = 0 := by omega
    omega
  · have h0 : (31 - 27) * 8 % 64 = 32 := by omega
    rw [h0]
    have h1 : (m0 * 2 ^ 24 + m1 * 2 ^ 16 + m2 * 2 ^ 8 + 0) * 2 ^ 32 /
        2 ^ (8 * (31 - 28)) = m0 * 2 ^ 32 + m1 * 2 ^ 24 + m2 * 2 ^ 16 := by omega
    have h2 : (m2 * 2 ^ 16 + m1 * 2 ^ 8 + m0) * 2 ^ (8 * (27 - 3)) /
        2 ^ (8 * 28) = 0 := by omega
    omega
  · have h0 : (31 - 28) * 8 % 64 = 24 := by omega
    rw [h0]
    have h1 : (m0 * 2 ^ 24 + m1 * 2 ^ 16 + m2 * 2 ^ 8 + 0) * 2 ^ 24 /
        2 ^ (8 * (31 - 28)) = m0 * 2 ^ 24 + m1 * 2 ^ 16 + m2 * 2 ^ 8 := by omega
    have h2 : (m2 * 2 ^ 16 + m1 * 2 ^ 8 + m0) * 2 ^ (8 * (28 - 3)) /
        2 ^ (8 * 28) = 0 := by omega
    omega
  · have h0 : (31 - 29) * 8 % 64 = 16 := by omega
    rw [h0]
    have h1 : (m0 * 2 ^ 24 + m1 * 2 ^ 16 + m2 * 2 ^ 8 + 0) * 2 ^ 16 /
        2 ^ (8 * (31 - 28)) = m0 * 2 ^ 16 + m1 * 2 ^ 8 + m2 * 2 ^ 0 := by omega
    have h2 : (m2 * 2 ^ 16 + m1 * 2 ^ 8 + m0) * 2 ^ (8 * (29 - 3)) /
        2 ^ (8 * 28) = m2 * 2 ^ 0 := by omega
    omega
  · have h0 : (31 - 30) * 8 % 64 = 8 := by omega
    rw [h0]
    have h1 : (m0 * 2 ^ 24 + m1 * 2 ^ 16 + m2 * 2 ^ 8 + 0) * 2 ^ 8 /
        2 ^ (8 * (31 - 28)) = m0 * 2 ^ 8 + m1 * 2 ^ 0 := by omega
    have h2 : (m2 * 2 ^ 16 + m1 * 2 ^ 8 + m0) * 2 ^ (8 * (30 - 3)) /
        2 ^ (8 * 28) = m2 * 2 ^ 8 + m1 * 2 ^ 0 := by omega
    omega
  · have h0 : (31 - 31) * 8 % 64 = 0 := by omega
    rw [h0]
    have h1 : (m0 * 2 ^ 24 + m1 * 2 ^ 16 + m2 * 2 ^ 8 + 0) * 2 ^ 0 /
        2 ^ (8 * (31 - 28)) = m0 * 2 ^ 0 := by omega
    have h2 : (m2 * 2 ^ 16 + m1 * 2 ^ 8 + m0) * 2 ^ (8 * (31 - 3)) /
        2 ^ (8 * 28) = m2 * 2 ^ 16 + m1 * 2 ^ 8 + m0 * 2 ^ 0 := by omega
    omega

/-- Byte 29 of the network-target buffer agrees with the spec expansion
on the defined-shift exponent range. -/
theorem netExpand_byte29 (nbits : ℕ) (h32 : nbits < 2 ^ 32)
    (h3 : 24 ≤ nbits / 2 ^ 24) (h31 : nbits / 2 ^ 24 ≤ 31) :
    netTargetOf nbits 29 = expandCompactStorage nbits 29 := by
  have hE : swab32 nbits % 256 = nbits / 2 ^ 24 := by rw [swab32]; omega
  have hE2 : nbits / 2 ^ 24 % 256 = nbits / 2 ^ 24 := by omega
  simp only [netTargetOf, expandCompactStorage]
  rw [hE, hE2]
  rw [if_pos (show 24 ≤ 29 ∧ 29 < 32 by norm_num), if_pos (show (29 : ℕ) < 32 by norm_num)]
  simp only [swab32]
  obtain ⟨M, hM1⟩ : ∃ M, nbits % 2 ^ 24 = M := ⟨_, rfl⟩
  obtain ⟨E, hE1⟩ : ∃ E, nbits / 2 ^ 24 = E := ⟨_, rfl⟩
  rw [hE1] at h3 h31
  rw [hM1, hE1]
  obtain ⟨m0, m1, m2, hm0, hm1, hm2, hm3, hMdec, hb0, hb1, hb2⟩ :
      ∃ m0 m1 m2, M % 256 = m0 ∧ M / 2 ^ 8 % 256 = m1 ∧ M / 2 ^ 16 % 256 = m2 ∧
        M / 2 ^ 24 % 256 = 0 ∧ M = m2 * 2 ^ 16 + m1 * 2 ^ 8 + m0 ∧
        m0 < 256 ∧ m1 < 256 ∧ m2 < 256 :=
    ⟨M % 256, M / 2 ^ 8 % 256, M / 2 ^ 16 % 256, rfl, rfl, rfl, by omega, by omega,
      by omega, by omega, by omega⟩
  rw [hm0, hm1, hm2, hm3, hMdec]
  rw [modpow_div_mod256 _ _ _ (by norm_num), modpow_div_mod256 _ _ _ (by norm_num)]
  clear hE hE2 hm0 hm1 hm2 hm3 hMdec hM1 hE1 h32 M nbits
  interval_cases E
  · have h0 : (31 - 24) * 8 % 64 = 56 := by omega
    rw [h0]
    have h1 : (m0 * 2 ^ 24 + m1 * 2 ^ 16 + m2 * 2 ^ 8 + 0) * 2 ^ 56 /
        2 ^ (8 * (31 - 29)) = m0 * 2 ^ 64 + m1 * 2 ^ 56 + m2 * 2 ^ 48 := by omega
    have h2 : (m2 * 2 ^ 16 + m1 * 2 ^ 8 + m0) * 2 ^ (8 * (24 - 3)) /
        2 ^ (8 * 29) = 0 := by omega
    omega
  · have h0 : (31 - 25) * 8 % 64 = 48 := by omega
    rw [h0]
    have h1 : (m0 * 2 ^ 24 + m1 * 2 ^ 16 + m2 * 2 ^ 8 + 0) * 2 ^ 48 /
        2 ^ (8 * (31 - 29)) = m0 * 2 ^ 56 + m1 * 2 ^ 48 + m2 * 2 ^ 40 := by omega
    have h2 : (m2 * 2 ^ 16 + m1 * 2 ^ 8 + m0) * 2 ^ (8 * (25 - 3)) /
        2 ^ (8 * 29) = 0 := by omega
    omega
  · have h0 : (31 - 26) * 8 % 64 = 40 := by omega
    rw [h0]
    have h1 : (m0 * 2 ^ 24 + m1 * 2 ^ 16 + m2 * 2 ^ 8 + 0) * 2 ^ 40 /
        2 ^ (8 * (31 - 29)) = m0 * 2 ^ 48 + m1 * 2 ^ 40 + m2 * 2 ^ 32 := by omega
    have h2 : (m2 * 2 ^ 16 + m1 * 2 ^ 8 + m0) * 2 ^ (8 * (26 - 3)) /
        2 ^ (8 * 29) = 0 := by omega
    omega
  · have h0 : (31 - 27) * 8 % 64 = 32 := by omega
    rw [h0]
    have h1 : (m0 * 2 ^ 24 + m1 * 2 ^ 16 + m2 * 2 ^ 8 + 0) * 2 ^ 32 /
        2 ^ (8 * (31 - 29)) = m0 * 2 ^ 40 + m1 * 2 ^ 32 + m2 * 2 ^ 24 := by omega
    have h2 : (m2 * 2 ^ 16 + m1 * 2 ^ 8 + m0) * 2 ^ (8 * (27 - 3)) /
        2 ^ (8 * 29) = 0 := by omega
    omega
  · have h0 : (31 - 28) * 8 % 64 = 24 := by omega
    rw [h0]
    have h1 : (m0 * 2 ^ 24 + m1 * 2 ^ 16 + m2 * 2 ^ 8 + 0) * 2 ^ 24 /
        2 ^ (8 * (31 - 29)) = m0 * 2 ^ 32 + m1 * 2 ^ 24 + m2 * 2 ^ 16 := by omega
    have h2 : (m2 * 2 ^ 16 + m1 * 2 ^ 8 + m0) * 2 ^ (8 * (28 - 3)) /
        2 ^ (8 * 29) = 0 := by omega
    omega
  · have h0 : (31 - 29) * 8 % 64 = 16 := by omega
    rw [h0]
    have h1 : (m0 * 2 ^ 24 + m1 * 2 ^ 16 + m2 * 2 ^ 8 + 0) * 2 ^ 16 /
        2 ^ (8 * (31 - 29)) = m0 * 2 ^ 24 + m1 * 2 ^ 16 + m2 * 2 ^ 8 := by omega
    have h2 : (m2 * 2 ^ 16 + m1 * 2 ^ 8 + m0) * 2 ^ (8 * (29 - 3)) /
        2 ^ (8 * 29) = 0 := by omega
    omega
  · have h0 : (31 - 30) * 8 % 64 = 8 := by omega
    rw [h0]
    have h1 : (m0 * 2 ^ 24 + m1 * 2 ^ 16 + m2 * 2 ^ 8 + 0) * 2 ^ 8 /
        2 ^ (8 * (31 - 29)) = m0 * 2 ^ 16 + m1 * 2 ^ 8 + m2 * 2 ^ 0 := by omega
    have h2 : (m2 * 2 ^ 16 + m1 * 2 ^ 8 + m0) * 2 ^ (8 * (30 - 3)) /
        2 ^ (8 * 29) = m2 * 2 ^ 0 := by omega
    omega
  · have h0 : (31 - 31) * 8 % 64 = 0 := by omega
    rw [h0]
    have h1 : (m0 * 2 ^ 24 + m1 * 2 ^ 16 + m2 * 2 ^ 8 + 0) * 2 ^ 0 /
        2 ^ (8 * (31 - 29)) = m0 * 2 ^ 8 + m1 * 2 ^ 0 := by omega
    have h2 : (m2 * 2 ^ 16 + m1 * 2 ^ 8 + m0) * 2 ^ (8 * (31 - 3)) /
        2 ^ (8 * 29) = m2 * 2 ^ 8 + m1 * 2 ^ 0 := by omega
    omega

/-- Byte 30 of the network-target buffer agrees with the spec expansion
on the defined-shift exponent range. -/
theorem netExpand_byte30 (nbits : ℕ) (h32 : nbits < 2 ^ 32)
    (h3 : 24 ≤ nbits / 2 ^ 24) (h31 : nbits / 2 ^ 24 ≤ 31) :
    netTargetOf nbits 30 = expandCompactStorage nbits 30 := by
  have hE : swab32 nbits % 256 = nbits / 2 ^ 24 := by rw [swab32]; omega
  have hE2 : nbits / 2 ^ 24 % 256 = nbits / 2 ^ 24 := by omega
  simp only [netTargetOf, expandCompactStorage]
  rw [hE, hE2]
  rw [if_pos (show 24 ≤ 30 ∧ 30 < 32 by norm_num), if_pos (show (30 : ℕ) < 32 by norm_num)]
  simp only [swab32]
  obtain ⟨M, hM1⟩ : ∃ M, nbits % 2 ^ 24 = M := ⟨_, rfl⟩
  obtain ⟨E, hE1⟩ : ∃ E, nbits / 2 ^ 24 = E := ⟨_, rfl⟩
  rw [hE1] at h3 h31
  rw [hM1, hE1]
  obtain ⟨m0, m1, m2, hm0, hm1, hm2, hm3, hMdec, hb0, hb1, hb2⟩ :
      ∃ m0 m1 m2, M % 256 = m0 ∧ M / 2 ^ 8 % 256 = m1 ∧ M / 2 ^ 16 % 256 = m2 ∧
        M / 2 ^ 24 % 256 = 0 ∧ M = m2 * 2 ^ 16 + m1 * 2 ^ 8 + m0 ∧
        m0 < 256 ∧ m1 < 256 ∧ m2 < 256 :=
    ⟨M % 256, M / 2 ^ 8 % 256, M / 2 ^ 16 % 256, rfl, rfl, rfl, by omega, by omega,
      by omega, by omega, by omega⟩
  rw [hm0, hm1, hm2, hm3, hMdec]
  rw [modpow_div_mod256 _ _ _ (by norm_num), modpow_div_mod256 _ _ _ (by norm_num)]
  clear hE hE2 hm0 hm1 hm2 hm3 hMdec hM1 hE1 h32 M nbits
  interval_cases E
  · have h0 : (31 - 24) * 8 % 64 = 56 := by omega
    rw [h0]
    have h1 : (m0 * 2 ^ 24 + m1 * 2 ^ 16 + m2 * 2 ^ 8 + 0) * 2 ^ 56 /
        2 ^ (8 * (31 - 30)) = m0 * 2 ^ 72 + m1 * 2 ^ 64 + m2 * 2 ^ 56 := by omega
    have h2 : (m2 * 2 ^ 16 + m1 * 2 ^ 8 + m0) * 2 ^ (8 * (24 - 3)) /
        2 ^ (8 * 30) = 0 := by omega
    omega
  · have h0 : (31 - 25) * 8 % 64 = 48 := by omega
    rw [h0]
    have h1 : (m0 * 2 ^ 24 + m1 * 2 ^ 16 + m2 * 2 ^ 8 + 0) * 2 ^ 48 /
        2 ^ (8 * (31 - 30)) = m0 * 2 ^ 64 + m1 * 2 ^ 56 + m2 * 2 ^ 48 := by omega
    have h2 : (m2 * 2 ^ 16 + m1 * 2 ^ 8 + m0) * 2 ^ (8 * (25 - 3)) /
        2 ^ (8 * 30) = 0 := by omega
    omega
  · have h0 : (31 - 26) * 8 % 64 = 40 := by omega
    rw [h0]
    have h1 : (m0 * 2 ^ 24 + m1 * 2 ^ 16 + m2 * 2 ^ 8 + 0) * 2 ^ 40 /
        2 ^ (8 * (31 - 30)) = m0 * 2 ^ 56 + m1 * 2 ^ 48 + m2 * 2 ^ 40 := by omega
    have h2 : (m2 * 2 ^ 16 + m1 * 2 ^ 8 + m0) * 2 ^ (8 * (26 - 3)) /
        2 ^ (8 * 30) = 0 := by omega
    omega
  · have h0 : (31 - 27) * 8 % 64 = 32 := by omega
    rw [h0]
    have h1 : (m0 * 2 ^ 24 + m1 * 2 ^ 16 + m2 * 2 ^ 8 + 0) * 2 ^ 32 /
        2 ^ (8 * (31 - 30)) = m0 * 2 ^ 48 + m1 * 2 ^ 40 + m2 * 2 ^ 32 := by omega
    have h2 : (m2 * 2 ^ 16 + m1 * 2 ^ 8 + m0) * 2 ^ (8 * (27 - 3)) /
        2 ^ (8 * 30) = 0 := by omega
    omega
  · have h0 : (31 - 28) * 8 % 64 = 24 := by omega
    rw [h0]
    have h1 : (m0 * 2 ^ 24 + m1 * 2 ^ 16 + m2 * 2 ^ 8 + 0) * 2 ^ 24 /
        2 ^ (8 * (31 - 30)) = m0 * 2 ^ 40 + m1 * 2 ^ 32 + m2 * 2 ^ 24 := by omega
    have h2 : (m2 * 2 ^ 16 + m1 * 2 ^ 8 + m0) * 2 ^ (8 * (28 - 3)) /
        2 ^ (8 * 30) = 0 := by omega
    omega
  · have h0 : (31 - 29) * 8 % 64 = 16 := by omega
    rw [h0]
    have h1 : (m0 * 2 ^ 24 + m1 * 2 ^ 16 + m2 * 2 ^ 8 + 0) * 2 ^ 16 /
        2 ^ (8 * (31 - 30)) = m0 * 2 ^ 32 + m1 * 2 ^ 24 + m2 * 2 ^ 16 := by omega
    have h2 : (m2 * 2 ^ 16 + m1 * 2 ^ 8 + m0) * 2 ^ (8 * (29 - 3)) /
        2 ^ (8 * 30) = 0 := by omega
    omega
  · have h0 : (31 - 30) * 8 % 64 = 8 := by omega
    rw [h0]
    have h1 : (m0 * 2 ^ 24 + m1 * 2 ^ 16 + m2 * 2 ^ 8 + 0) * 2 ^ 8 /
        2 ^ (8 * (31 - 30)) = m0 * 2 ^ 24 + m1 * 2 ^ 16 + m2 * 2 ^ 8 := by omega
    have h2 : (m2 * 2 ^ 16 + m1 * 2 ^ 8 + m0) * 2 ^ (8 * (30 - 3)) /
        2 ^ (8 * 30) = 0 := by omega
    omega
  · have h0 : (31 - 31) * 8 % 64 = 0 := by omega
    rw [h0]
    have h1 : (m0 * 2 ^ 24 + m1 * 2 ^ 16 + m2 * 2 ^ 8 + 0) * 2 ^ 0 /
        2 ^ (8 * (31 - 30)) = m0 * 2 ^ 16 + m1 * 2 ^ 8 + m2 * 2 ^ 0 := by omega
    have h2 : (m2 * 2 ^ 16 + m1 * 2 ^ 8 + m0) * 2 ^ (8 * (31 - 3)) /
        2 ^ (8 * 30) = m2 * 2 ^ 0 := by omega
    omega

/-- C4 (amended): for every `nbits` whose exponent byte is in `[24, 31]` --
where the shift count `(31 - e) * 8` stays below 64 and the C shift is
defined -- the network difficulty computed by `equi_network_diff` equals
`target_to_diff_equi` applied to the full 256-bit expansion of `nbits`.
For exponent bytes 3..23 the shift count is 64 or more, the C shift is
undefined (real targets mask the count), and the equality fails
(cf. the counterexample at exponent 23). -/
theorem equi_network_diff_eq_expand (nbits : ℕ) (h32 : nbits < 2 ^ 32)
    (h3 : 24 ≤ nbits / 2 ^ 24) (h31 : nbits / 2 ^ 24 ≤ 31) :
    equi_network_diff nbits = target_to_diff_equi (expandCompactStorage nbits) := by
  rw [equi_network_diff]
  exact target_to_diff_eq_of_bytes _ _
    (by rw [netExpand_byte27 nbits h32 h3 h31])
    (by rw [netExpand_byte28 nbits h32 h3 h31])
    (by rw [netExpand_byte29 nbits h32 h3 h31])
    (by rw [netExpand_byte30 nbits h32 h3 h31])

/-- Witness for C4 at the common Equihash compact value `nbits = 0x1f07ffff`. -/
theorem equi_network_diff_eq_expand_witness :
    (520617983 < 2 ^ 32 ∧ 24 ≤ 520617983 / 2 ^ 24 ∧ 520617983 / 2 ^ 24 ≤ 31) ∧
    equi_network_diff 520617983 = target_to_diff_equi (expandCompactStorage 520617983) :=
  ⟨⟨by norm_num, by norm_num, by norm_num⟩,
    equi_network_diff_eq_expand 520617983 (by norm_num) (by norm_num) (by norm_num)⟩

/-- C4 counterexample: `nbits = 0x1707ffff` has exponent byte 23, inside the
claimed range `[3, 31]`; the shift count is `(31 - 23) * 8 = 64` -- undefined
in C, masked to 0 on real targets -- so the code reads back the word
`0x07ffff00` (a difficulty of roughly 32) while the 256-bit expansion
`mant * 256^20` has only zero bytes in the read window and converts to 0. -/
theorem equi_network_diff_expand_fails_low_exponent :
    3 ≤ (386400255 : ℕ) / 2 ^ 24 ∧ (386400255 : ℕ) / 2 ^ 24 ≤ 31 ∧
    equi_network_diff 386400255 ≠
      target_to_diff_equi (expandCompactStorage 386400255) := by
  refine ⟨by norm_num, by norm_num, ?_⟩
  have hL : netTargetOf 386400255 30 % 256 * 2 ^ 24 +
      netTargetOf 386400255 29 % 256 * 2 ^ 16 +
      netTargetOf 386400255 28 % 256 * 2 ^ 8 +
      netTargetOf 386400255 27 % 256 = 134217472 := by decide
  have hR : expandCompactStorage 386400255 30 % 256 * 2 ^ 24 +
      expandCompactStorage 386400255 29 % 256 * 2 ^ 16 +
      expandCompactStorage 386400255 28 % 256 * 2 ^ 8 +
      expandCompactStorage 386400255 27 % 256 = 0 := by decide
  simp only [equi_network_diff, target_to_diff_equi, hL, hR]
  norm_num

/-- Modelled from the spec: hex digit value used by `hex2bin` (util.cpp is
not part of the adapter source). Non-hex characters decode as 0 here; the
claims only exercise well-formed hex strings. -/
def hexVal (c : Char) : ℕ :=
  if '0' ≤ c ∧ c ≤ '9' then c.toNat - '0'.toNat
  else if 'a' ≤ c ∧ c ≤ 'f' then c.toNat - 'a'.toNat + 10
  else if 'A' ≤ c ∧ c ≤ 'F' then c.toNat - 'A'.toNat + 10
  else 0

/-- Modelled from the spec: decode consecutive hex-digit pairs into bytes,
stopping when fewer than two characters remain. -/
def hexPairs : List Char → List ℕ
  | a :: b :: rest => (16 * hexVal a + hexVal b) :: hexPairs rest
  | _ => []

/-- Modelled from the spec: `hex2bin(out, hexstr, len)` decodes up to `len`
bytes from the hex string, stopping at the end of the string. -/
def hex2bin (s : String) (len : ℕ) : List ℕ := (hexPairs s.toList).take len

/-- Overwrite bytes `off .. off + src.length - 1` of a buffer (a `memcpy`
of `src` into the buffer at `off`). -/
def bufWrite (f : ℕ → ℕ) (off : ℕ) (src : List ℕ) : ℕ → ℕ := fun i =>
  if off ≤ i ∧ i < off + src.length then src.getD (i - off) 0 else f i

/-- Set bytes `off .. off + len - 1` of a buffer to `v` (a `memset`). -/
def bufFill (f : ℕ → ℕ) (off len v : ℕ) : ℕ → ℕ := fun i =>
  if off ≤ i ∧ i < off + len then v else f i

/-- Model of `realloc`: contents are preserved up to the smaller of the two
sizes; bytes beyond that are unspecified (taken as 0 here — no claim
depends on them). -/
def reallocBuf (f : ℕ → ℕ) (oldsize newsize : ℕ) : ℕ → ℕ := fun i =>
  if i < min oldsize newsize then f i else 0

/-- The 4 decoded `ntime` bytes read back as a little-endian signed 32-bit
`int` (`hex2bin((uchar*)&ntime, stime, 4)` on a little-endian host). -/
def asInt32 (b : List ℕ) : ℤ :=
  let u : ℕ := b.getD 0 0 + 2 ^ 8 * b.getD 1 0 + 2 ^ 16 * b.getD 2 0 + 2 ^ 24 * b.getD 3 0
  if u < 2 ^ 31 then (u : ℤ) else (u : ℤ) - 2 ^ 32

/-- The job part of `struct stratum_ctx` that the Equihash handlers touch.
`coinbase` and `solution` are byte buffers; `xnonce2_offset` is the offset
of the `xnonce2` view inside `coinbase`. -/
structure Job where
  job_id : Option String := none
  version : List ℕ := []
  prevhash : List ℕ := []
  coinbase : ℕ → ℕ := fun _ => 0
  coinbase_size : ℕ := 0
  xnonce2_offset : ℕ := 0
  solution : ℕ → ℕ := fun _ => 0
  nbits : List ℕ := []
  ntime : List ℕ := []
  clean : Bool := false
  diff : ℚ := 0
  extra : ℕ → ℕ := fun _ => 0
  merkle_count : ℕ := 0

/-- The session state the handlers read and write. -/
structure StratumCtx where
  job : Job := {}
  xnonce1 : List ℕ := []
  xnonce1_size : ℕ := 0
  xnonce2_size : ℕ := 0
  next_diff : ℚ := 0
  srvtime_diff : ℤ := 0

/-- The positional parameter array of `mining.notify`:
`[job_id, version, prevhash, coinb1, coinb2, ntime, nbits, clean, solution]`,
each string absent when the JSON element is missing or not a string. -/
structure NotifyParams where
  job_id : Option String := none
  version : Option String := none
  prevhash : Option String := none
  coinb1 : Option String := none
  coinb2 : Option String := none
  ntime : Option String := none
  nbits : Option String := none
  clean : Bool := false
  solution : Option String := none

/-- Validation block of `equi_stratum_notify`: the seven strings must be
present with the fixed hex lengths. The `solution` parameter is not
checked by the code. -/
def notifyValid (p : NotifyParams) : Bool :=
  p.job_id.isSome && p.version.isSome && p.prevhash.isSome && p.coinb1.isSome &&
  p.coinb2.isSome && p.ntime.isSome && p.nbits.isSome &&
  ((p.prevhash.getD "").length == 64) && ((p.version.getD "").length == 8) &&
  ((p.coinb1.getD "").length == 64) && ((p.coinb2.getD "").length == 64) &&
  ((p.nbits.getD "").length == 8) && ((p.ntime.getD "").length == 8)

/-- Success path of `equi_stratum_notify` after validation: decode the
solution into its slot, update `srvtime_diff` from the decoded `ntime`
against the wall clock `now`, rebuild the coinbase
(`realloc`, `coinb1`, `coinb2`, conditional `xnonce2` reset, `xnonce1`
copy), reset the merkle list, store the job fields, and adopt
`next_diff` as the job difficulty. -/
def notifyInstall (now : ℤ) (s : StratumCtx) (jid ver ph cb1 cb2 st nb : String)
    (cln : Bool) (sol : String) : StratumCtx :=
  let c1s := cb1.length / 2
  let c2s := cb2.length / 2
  let size := c1s + c2s + s.xnonce1_size + s.xnonce2_size
  let drift := asInt32 (hex2bin st 4) - now
  let cb := bufWrite (bufWrite (reallocBuf s.job.coinbase s.job.coinbase_size size) 0
    (hex2bin cb1 c1s)) c1s (hex2bin cb2 c2s)
  let cbz := if s.job.job_id = some jid then cb
    else bufFill cb (c1s + c2s + s.xnonce1_size) s.xnonce2_size 0
  let cbx := bufWrite cbz (c1s + c2s) (s.xnonce1.take s.xnonce1_size)
  { s with
    srvtime_diff := if s.srvtime_diff < drift then drift else s.srvtime_diff,
    job := { s.job with
      solution := bufWrite s.job.solution 0 (hex2bin sol 1344),
      version := hex2bin ver 4,
      prevhash := hex2bin ph 32,
      coinbase_size := size,
      coinbase := cbx,
      xnonce2_offset := c1s + c2s + s.xnonce1_size,
      merkle_count := 0,
      job_id := some jid,
      nbits := hex2bin nb 4,
      ntime := hex2bin st 4,
      clean := cln,
      diff := s.next_diff } }

/-- The handler `equi_stratum_notify(sctx, params)`. Result: `some` of the
returned boolean, the state afterwards, and the number of error log lines;
`none` models the undefined behaviour of passing an absent `solution`
(a NULL pointer) to `hex2bin`, which the code does not guard against. -/
def equi_stratum_notify (now : ℤ) (s : StratumCtx) (p : NotifyParams) :
    Option (Bool × StratumCtx × ℕ) :=
  if notifyValid p then
    match p.solution with
    | none => none
    | some sol =>
      some (true, notifyInstall now s (p.job_id.getD "") (p.version.getD "")
        (p.prevhash.getD "") (p.coinb1.getD "") (p.coinb2.getD "")
        (p.ntime.getD "") (p.nbits.getD "") p.clean sol, 0)
  else some (false, s, 1)

/-- One step of the reorder loop of `equi_stratum_set_target`: copy byte
`i` of the decoded buffer into storage position `31 - i`, counting nonzero
bytes copied; once 8 nonzero bytes were seen the loop has broken out
(modelled as a no-op for the remaining indices). -/
def stStep (bin : List ℕ) (st : ℕ × (ℕ → ℕ)) (i : ℕ) : ℕ × (ℕ → ℕ) :=
  if st.1 = 8 then st
  else
    let b := bin.getD i 0
    (if b ≠ 0 then st.1 + 1 else st.1, Function.update st.2 (31 - i) b)

/-- The reversed-with-compaction target of `equi_stratum_set_target`
(`target_be` built from `target_bin`). -/
def setTargetBe (bin : List ℕ) : ℕ → ℕ :=
  ((List.range 32).foldl (stStep bin) (0, fun _ => 0)).2

/-- The handler `equi_stratum_set_target(sctx, params)`: on a present,
nonempty target hex string it stores the reversed target in `job.extra`
and stages `next_diff = target_to_diff_equi(target_be)`; otherwise it
fails without touching the state. (For hex strings shorter than 64
characters the C code reads uninitialized stack bytes; the model reads 0.) -/
def equi_stratum_set_target (s : StratumCtx) (params : Option String) :
    Bool × StratumCtx :=
  match params with
  | none => (false, s)
  | some hx =>
    if hx.length = 0 then (false, s)
    else
      let tbe := setTargetBe (hex2bin hx 32)
      (true, { s with
        job := { s.job with extra := tbe },
        next_diff := target_to_diff_equi tbe })

/-- The share bookkeeping of the session that `equi_stratum_submit`
touches (`stratum.job.shares_count` and `stratum.sharediff`). -/
structure SubmitCtx where
  shares_count : ℕ
  sharediff : ℚ

/-- The handler `equi_stratum_submit(pool, work)`. The Boolean flags model
its fallible externals: `allocOk` is the joint success of the `solhex`
calloc and the `bin2hex` nonce allocation (the code checks them together
and returns false), `restoreOk` the unchecked `solHexRestore` calloc
(on failure the code feeds NULL to `memcpy` — modelled as `none`), and
`sendOk` the `stratum_send_line` transport. `wsharediff` is
`work->sharediff[idnonce]`. Result: the returned boolean, the state
afterwards, and the JSON id of the line delivered to the pool
(`"id":shares_count + 10`), `none` when no line was delivered. -/
def equi_stratum_submit (allocOk restoreOk sendOk : Bool) (wsharediff : ℚ)
    (st : SubmitCtx) : Option (Bool × SubmitCtx × Option ℕ) :=
  match allocOk, restoreOk, sendOk with
  | false, _, _ => some (false, st, none)
  | true, false, _ => none
  | true, true, false => some (false, st, none)
  | true, true, true =>
    some (true, ⟨st.shares_count + 1, wsharediff⟩, some (st.shares_count + 10))

/-- A session of submissions: run `equi_stratum_submit` once per entry of
`calls` (alloc, restore, send flags and share difficulty), collecting the
ids of the delivered lines; a crash ends the session. -/
def runSubmits : List (Bool × Bool × Bool × ℚ) → SubmitCtx → List ℕ
  | [], _ => []
  | c :: rest, st =>
    match equi_stratum_submit c.1 c.2.1 c.2.2.1 c.2.2.2 st with
    | none => []
    | some (true, st2, some i) => i :: runSubmits rest st2
    | some (true, st2, none) => runSubmits rest st2
    | some (false, st2, _) => runSubmits rest st2

/-- C8: the submission id is `shares_count + 10`; `shares_count` is
incremented exactly when `stratum_send_line` succeeds; allocation failure
sends nothing and send failure returns false, both leaving the counter
unchanged; hence across a session the delivered ids are the consecutive
run starting at the session-start `shares_count + 10`, strictly
increasing. -/
theorem submit_id_monotonic :
    (∀ (st : SubmitCtx) (q : ℚ), equi_stratum_submit true true true q st =
      some (true, ⟨st.shares_count + 1, q⟩, some (st.shares_count + 10))) ∧
    (∀ (st : SubmitCtx) (q : ℚ) (r sd : Bool),
      equi_stratum_submit false r sd q st = some (false, st, none)) ∧
    (∀ (st : SubmitCtx) (q : ℚ),
      equi_stratum_submit true true false q st = some (false, st, none)) ∧
    (∀ (st : SubmitCtx) (q : ℚ) (sd : Bool),
      equi_stratum_submit true false sd q st = none) ∧
    (∀ (calls : List (Bool × Bool × Bool × ℚ)) (st : SubmitCtx),
      runSubmits calls st =
        List.range' (st.shares_count + 10) (runSubmits calls st).length) := by
  refine ⟨fun st q => rfl, fun st q r sd => rfl, fun st q => rfl,
    fun st q sd => rfl, ?_⟩
  intro calls
  induction calls with
  | nil => intro st; rfl
  | cons c rest ih =>
    intro st
    obtain ⟨a, r, sd, q⟩ := c
    cases a
    · show runSubmits ((false, r, sd, q) :: rest) st = _
      simp only [runSubmits, equi_stratum_submit]
      exact ih st
    · cases r
      · show runSubmits ((true, false, sd, q) :: rest) st = _
        rfl
      · cases sd
        · show runSubmits ((true, true, false, q) :: rest) st = _
          simp only [runSubmits, equi_stratum_submit]
          exact ih st
        · show runSubmits ((true, true, true, q) :: rest) st = _
          simp only [runSubmits, equi_stratum_submit, List.length_cons,
            List.range'_succ]
          exact List.cons_eq_cons.mpr ⟨rfl, ih ⟨st.shares_count + 1, q⟩⟩

/-- Session fixture: `xnonce1 = 01 02 03 04`, `xnonce2_size = 4`, no job
installed yet. -/
def initCtx : StratumCtx :=
  { xnonce1 := [1, 2, 3, 4], xnonce1_size := 4, xnonce2_size := 4 }

/-- Notify fixture with seven well-formed header fields and a solution of
one byte (far short of the 1344 the protocol mandates). -/
def shortSolParams : NotifyParams :=
  { job_id := some "0badc0de00112233"
    version := some "00000004"
    prevhash := some "00112233445566778899aabbccddeeff00112233445566778899aabbccddeeff"
    coinb1 := some "1111111111111111111111111111111111111111111111111111111111111111"
    coinb2 := some "2222222222222222222222222222222222222222222222222222222222222222"
    ntime := some "5f000000"
    nbits := some "1f07ffff"
    clean := true
    solution := some "aa" }

/-- C5 counterexample: a notify whose `solution` decodes to a single byte
(fewer than 1344) is not rejected — the handler returns true and installs
the job, because the code never validates the solution parameter. -/
theorem notify_short_solution_accepted :
    (hex2bin "aa" 1344).length < 1344 ∧
    (equi_stratum_notify 0 initCtx shortSolParams).map (fun r => r.1) =
      some true :=
  ⟨by decide, rfl⟩

/-- C5 (amended): `equi_stratum_notify` returns false, logs a single
error, and leaves the state untouched exactly when one of the seven
header fields is absent or of the wrong hex length; the `solution`
parameter is never validated — with the seven fields in order a notify
succeeds whatever the solution string holds (and an absent solution is
passed to `hex2bin` as a NULL pointer). -/
theorem notify_validation_behavior (now : ℤ) (s : StratumCtx) (p : NotifyParams)
    (sol : String) (hsol : p.solution = some sol) :
    (notifyValid p = false → equi_stratum_notify now s p = some (false, s, 1)) ∧
    (notifyValid p = true →
      (equi_stratum_notify now s p).map (fun r => r.1) = some true) := by
  constructor
  · intro hv
    simp [equi_stratum_notify, hv]
  · intro hv
    simp [equi_stratum_notify, hv, hsol]

/-- Fixture for the C5 witness: valid fields except a two-character
`prevhash`. -/
def badNotifyParams : NotifyParams := { shortSolParams with prevhash := some "00" }

/-- Witness for C5 (amended) at `badNotifyParams`. -/
theorem notify_validation_behavior_witness :
    badNotifyParams.solution = some "aa" ∧
    ((notifyValid badNotifyParams = false →
        equi_stratum_notify 0 initCtx badNotifyParams = some (false, initCtx, 1)) ∧
      (notifyValid badNotifyParams = true →
        (equi_stratum_notify 0 initCtx badNotifyParams).map (fun r => r.1) =
          some true)) :=
  ⟨rfl, notify_validation_behavior 0 initCtx badNotifyParams "aa" rfl⟩

/-- C6: a successful notify installs `job.diff` equal to the `next_diff`
staged by the preceding `equi_stratum_set_target`. -/
theorem notify_adopts_staged_next_diff (s : StratumCtx) (tp : Option String)
    (s1 : StratumCtx) (now : ℤ) (p : NotifyParams) (s2 : StratumCtx) (n : ℕ)
    (hset : equi_stratum_set_target s tp = (true, s1))
    (hnot : equi_stratum_notify now s1 p = some (true, s2, n)) :
    s2.job.diff = s1.next_diff := by
  rw [equi_stratum_notify] at hnot
  by_cases hv : notifyValid p = true
  · rw [if_pos hv] at hnot
    cases hsol : p.solution with
    | none => rw [hsol] at hnot; exact absurd hnot (by simp)
    | some sol =>
      rw [hsol] at hnot
      simp only [Option.some.injEq, Prod.mk.injEq] at hnot
      obtain ⟨-, h2, -⟩ := hnot
      rw [← h2]
      rfl
  · rw [if_neg hv] at hnot
    exact absurd hnot (by simp)

/-- Target fixture: the diff-32 sample from the comment atop the C file. -/
def c6TargetHex : String :=
  "0007fff800000000000000000000000000000000000000000000000000000000"

/-- State after staging the diff-32 target. -/
def c6s1 : StratumCtx := (equi_stratum_set_target initCtx (some c6TargetHex)).2

/-- State after the follow-up notify. -/
def c6s2 : StratumCtx :=
  match equi_stratum_notify 0 c6s1 shortSolParams with
  | some r => r.2.1
  | none => c6s1

/-- Witness for C6: stage the diff-32 target, then notify; the installed
job difficulty is the staged `next_diff`. -/
theorem notify_adopts_staged_next_diff_witness :
    equi_stratum_set_target initCtx (some c6TargetHex) = (true, c6s1) ∧
    equi_stratum_notify 0 c6s1 shortSolParams = some (true, c6s2, 0) ∧
    c6s2.job.diff = c6s1.next_diff :=
  ⟨rfl, rfl, notify_adopts_staged_next_diff initCtx (some c6TargetHex) c6s1 0
    shortSolParams c6s2 0 rfl rfl⟩

/-- A `bufWrite` leaves bytes at or beyond `off + src.length` unchanged. -/
theorem bufWrite_out (f : ℕ → ℕ) (off : ℕ) (src : List ℕ) (i : ℕ)
    (h : off + src.length ≤ i) : bufWrite f off src i = f i := by
  rw [bufWrite, if_neg]
  intro hc
  omega

/-- A `bufFill` sets every byte of its range. -/
theorem bufFill_in (f : ℕ → ℕ) (off len v i : ℕ) (h1 : off ≤ i)
    (h2 : i < off + len) : bufFill f off len v i = v := by
  rw [bufFill, if_pos ⟨h1, h2⟩]

/-- A `reallocBuf` preserves bytes below both sizes. -/
theorem reallocBuf_lt (f : ℕ → ℕ) (a b i : ℕ) (h : i < min a b) :
    reallocBuf f a b i = f i := by
  rw [reallocBuf, if_pos h]

/-- When the job id changes, the installed coinbase has zeros throughout
the `xnonce2` region (offset `|coinb1| + |coinb2| + xnonce1_size`, length
`xnonce2_size`). -/
theorem notifyInstall_xnonce2_zero (now : ℤ) (s : StratumCtx)
    (jid ver ph cb1 cb2 st nb : String) (cln : Bool) (sol : String)
    (h1 : cb1.length = 64) (h2 : cb2.length = 64)
    (hch : ¬ s.job.job_id = some jid) (j : ℕ) (hj : j < s.xnonce2_size) :
    (notifyInstall now s jid ver ph cb1 cb2 st nb cln sol).job.coinbase
      (64 + s.xnonce1_size + j) = 0 := by
  simp only [notifyInstall, h1, h2]
  rw [bufWrite_out _ _ _ _ (by simp only [List.length_take]; omega)]
  rw [if_neg hch]
  rw [bufFill_in _ _ _ _ _ (by omega) (by omega)]

/-- When the job id is unchanged and the coinbase already has the standard
size, the installed coinbase keeps the prior bytes of the `xnonce2`
region. -/
theorem notifyInstall_xnonce2_keep (now : ℤ) (s : StratumCtx)
    (jid ver ph cb1 cb2 st nb : String) (cln : Bool) (sol : String)
    (h1 : cb1.length = 64) (h2 : cb2.length = 64)
    (hsame : s.job.job_id = some jid)
    (hsize : s.job.coinbase_size = 64 + s.xnonce1_size + s.xnonce2_size)
    (j : ℕ) (hj : j < s.xnonce2_size) :
    (notifyInstall now s jid ver ph cb1 cb2 st nb cln sol).job.coinbase
      (64 + s.xnonce1_size + j) =
      s.job.coinbase (64 + s.xnonce1_size + j) := by
  simp only [notifyInstall, h1, h2, hsize]
  rw [bufWrite_out _ _ _ _ (by simp only [List.length_take]; omega)]
  rw [if_pos hsame]
  rw [bufWrite_out _ _ _ _ (by simp only [hex2bin, List.length_take]; omega)]
  rw [bufWrite_out _ _ _ _ (by simp only [hex2bin, List.length_take]; omega)]
  rw [reallocBuf_lt _ _ _ _ (by omega)]

/-- C7: after a successful notify whose `job_id` differs from the
installed one (or none was installed) the `xnonce2` region of the new
coinbase is all zero; a successful notify with the identical `job_id`
preserves the prior bytes of that region (given the coinbase size
invariant from the previous successful notify). -/
theorem notify_xnonce2_reset_rule (now : ℤ) (s : StratumCtx)
    (jid ver ph cb1 cb2 nt nb : String) (cln : Bool) (sol : String)
    (s2 : StratumCtx) (n : ℕ)
    (hnot : equi_stratum_notify now s
        ⟨some jid, some ver, some ph, some cb1, some cb2, some nt, some nb, cln,
          some sol⟩ = some (true, s2, n)) :
    ((s.job.job_id = none ∨ s.job.job_id ≠ some jid) →
      ∀ j < s.xnonce2_size, s2.job.coinbase (64 + s.xnonce1_size + j) = 0) ∧
    (s.job.job_id = some jid →
      s.job.coinbase_size = 64 + s.xnonce1_size + s.xnonce2_size →
      ∀ j < s.xnonce2_size,
        s2.job.coinbase (64 + s.xnonce1_size + j) =
          s.job.coinbase (64 + s.xnonce1_size + j)) := by
  rw [equi_stratum_notify] at hnot
  by_cases hv : notifyValid
      ⟨some jid, some ver, some ph, some cb1, some cb2, some nt, some nb, cln,
        some sol⟩ = true
  · rw [if_pos hv] at hnot
    have hcb1 : cb1.length = 64 := by
      have h := hv
      simp [notifyValid] at h
      tauto
    have hcb2 : cb2.length = 64 := by
      have h := hv
      simp [notifyValid] at h
      tauto
    simp only [Option.some.injEq, Prod.mk.injEq] at hnot
    obtain ⟨-, hs2, -⟩ := hnot
    constructor
    · intro hch j hj
      rw [← hs2]
      refine notifyInstall_xnonce2_zero now s jid ver ph cb1 cb2 nt nb cln sol
        hcb1 hcb2 ?_ j hj
      rcases hch with hnone | hne
      · rw [hnone]
        simp
      · exact hne
    · intro hsame hsize j hj
      rw [← hs2]
      exact notifyInstall_xnonce2_keep now s jid ver ph cb1 cb2 nt nb cln sol
        hcb1 hcb2 hsame hsize j hj
  · rw [if_neg hv] at hnot
    exact absurd hnot (by simp)

/-- State after a first notify on the fresh session. -/
def c7s2 : StratumCtx :=
  match equi_stratum_notify 0 initCtx shortSolParams with
  | some r => r.2.1
  | none => initCtx

/-- Witness for C7: the first notify on a fresh session (no installed
job id) zero-fills the `xnonce2` region. -/
theorem notify_xnonce2_reset_rule_witness :
    equi_stratum_notify 0 initCtx shortSolParams = some (true, c7s2, 0) ∧
    (initCtx.job.job_id = none ∨ initCtx.job.job_id ≠ some "0badc0de00112233") ∧
    ∀ j < initCtx.xnonce2_size, c7s2.job.coinbase (64 + initCtx.xnonce1_size + j) = 0 :=
  ⟨rfl, Or.inl rfl,
    (notify_xnonce2_reset_rule 0 initCtx "0badc0de00112233" "00000004"
      "00112233445566778899aabbccddeeff00112233445566778899aabbccddeeff"
      "1111111111111111111111111111111111111111111111111111111111111111"
      "2222222222222222222222222222222222222222222222222222222222222222"
      "5f000000" "1f07ffff" true "aa" c7s2 0 rfl).1 (Or.inl rfl)⟩
